import Mathlib

/-
Verification of the OPB binary decoder (opb-rs, src/lib.rs).
The embedding models bytes as natural numbers below 256 and byte buffers
as lists. The header parser returns an Except value: its errors are
ordinary values. The varint reader read_u7 is modelled with checked Rust
arithmetic: its accumulators are u8 in the source, and the combination
expression at lib.rs line 129 shifts a u8 by 14 and by 21, which Rust
rejects at compile time (the deny level arithmetic overflow lint fires on
constant over wide shifts) and which panics under debug assertions; the
RunResult type below makes that outcome explicit instead of widening the
arithmetic to 32 bits.
-/

/-- Kinds of nom read errors produced by the combinators used in lib.rs:
the complete-input u8 and be_u32 readers signal Eof when the buffer is
exhausted, and the tag combinator signals Tag on a mismatched or too short
magic. -/
inductive ErrKind where
  | Eof : ErrKind
  | Tag : ErrKind
deriving DecidableEq

/-- The error type OpbError of lib.rs lines 21-27: Format carries the
offending format byte, Read carries the remaining input at the failure point
together with the nom error kind (the ParseError impl at lines 29-37 maps
from_error_kind to this variant), NotAnOpbFile carries the seven bytes read
as the magic, and Version is declared but never constructed. -/
inductive OpbError where
  | Format : Nat → OpbError
  | Read : List Nat → ErrKind → OpbError
  | NotAnOpbFile : List Nat → OpbError
  | Version : OpbError
deriving DecidableEq

/-- The format discriminant OpbFormat of lib.rs lines 39-44. -/
inductive OpbFormat where
  | Standard : OpbFormat
  | Raw : OpbFormat
deriving DecidableEq

/-- The header struct OpbHeader of lib.rs lines 46-53; counts are u32
values, kept as naturals (be_u32 over bytes below 256 never exceeds
2 to the 32). -/
structure OpbHeader where
  id : List Nat
  fmt : OpbFormat
  size : Nat
  num_instruments : Nat
  num_chunks : Nat
deriving DecidableEq

/-- The OpbFile struct of lib.rs lines 55-58. -/
structure OpbFile where
  header : OpbHeader
deriving DecidableEq

/-- The fixed seven byte magic FILE_ID of lib.rs line 17:
the ASCII bytes of OPBin1 followed by a zero byte. -/
def FILE_ID : List Nat := [79, 80, 66, 105, 110, 49, 0]

/-- nom complete u8: read one byte or fail with an Eof read error carrying
the (empty) remaining input. -/
def u8P (input : List Nat) : Except OpbError (List Nat × Nat) :=
  if 1 ≤ input.length then Except.ok (input.drop 1, input.getD 0 0)
  else Except.error (OpbError.Read input ErrKind.Eof)

/-- nom complete tag: succeed when the input starts with the given bytes,
returning the matched slice and the rest; otherwise fail with a Tag read
error carrying the whole input at the call. -/
def tagP (t : List Nat) (input : List Nat) : Except OpbError (List Nat × List Nat) :=
  if input.take t.length = t then Except.ok (input.drop t.length, input.take t.length)
  else Except.error (OpbError.Read input ErrKind.Tag)

/-- Big endian combination of four bytes, as nom builds a be_u32:
shift the accumulator left by eight and add each byte in order. -/
def be32 (a b c d : Nat) : Nat :=
  ((((((0 <<< 8) + a) <<< 8) + b) <<< 8) + c) <<< 8 + d

/-- nom complete be_u32: read four bytes big endian, or fail with an Eof
read error carrying the remaining (short) input. -/
def be_u32P (input : List Nat) : Except OpbError (List Nat × Nat) :=
  if 4 ≤ input.length then
    Except.ok (input.drop 4, be32 (input.getD 0 0) (input.getD 1 0) (input.getD 2 0) (input.getD 3 0))
  else Except.error (OpbError.Read input ErrKind.Eof)

/-- The outcome of running a source function under checked Rust
arithmetic: a value, an ordinary parser error returned as a value, or an
arithmetic overflow. Rust rejects a statically over wide shift at compile
time (the arithmetic overflow lint is deny by default) and panics on it
under debug assertions; overflow is the embedding of that outcome. -/
inductive RunResult (α : Type) where
  | ok : α → RunResult α
  | error : OpbError → RunResult α
  | overflow : RunResult α
deriving DecidableEq

/-- Checked shift left on u8: a shift amount of eight or more overflows
(in Rust a compile time error for constant amounts, a debug panic
otherwise); for a valid amount the value bits shifted out of the eight bit
width are discarded, which is the defined Rust behavior of shl. -/
def shlU8 (x n : Nat) : Option Nat :=
  if n < 8 then some ((x <<< n) % 256) else none

/-- The result expression of read_u7 at lib.rs line 129 under the types of
the source: b0 to b3 are u8 (nom u8 output and untyped zero literals, with
no implicit widening in Rust), so the whole or and shift combination is
u8 arithmetic evaluated before the cast to u32. The shift of b1 by 7 is
valid u8 shl; the shifts of b2 by 14 and of b3 by 21 exceed the u8 width
and overflow, so the checked evaluation, left to right, always stops at
the shift of b2 and yields no value. -/
def u7val (b0 b1 b2 b3 : Nat) : Option Nat :=
  match shlU8 b1 7 with
  | none => none
  | some s1 =>
    match shlU8 b2 14 with
    | none => none
    | some s2 =>
      match shlU8 b3 21 with
      | none => none
      | some s3 => some ((b0 ||| s1 ||| s2 ||| s3) % 4294967296)

/-- read_u7 of lib.rs lines 102-130: read one byte; while the continuation
bit 0x80 is set on bytes zero to two, mask it off and read the next byte;
the early returns on exhausted input happen before the final result
expression, which is evaluated on every completed parse and is modelled by
u7val under checked u8 arithmetic (it always overflows, see u7val). -/
def read_u7 (input : List Nat) : RunResult (List Nat × Nat) :=
  match u8P input with
  | Except.error e => RunResult.error e
  | Except.ok (input, b0) =>
    if 128 ≤ b0 then
      match u8P input with
      | Except.error e => RunResult.error e
      | Except.ok (input, b1) =>
        if 128 ≤ b1 then
          match u8P input with
          | Except.error e => RunResult.error e
          | Except.ok (input, b2) =>
            if 128 ≤ b2 then
              match u8P input with
              | Except.error e => RunResult.error e
              | Except.ok (input, b3) =>
                match u7val (b0 &&& 127) (b1 &&& 127) (b2 &&& 127) b3 with
                | some v => RunResult.ok (input, v)
                | none => RunResult.overflow
            else
              match u7val (b0 &&& 127) (b1 &&& 127) b2 0 with
              | some v => RunResult.ok (input, v)
              | none => RunResult.overflow
        else
          match u7val (b0 &&& 127) b1 0 0 with
          | some v => RunResult.ok (input, v)
          | none => RunResult.overflow
    else
      match u7val b0 0 0 0 with
      | some v => RunResult.ok (input, v)
      | none => RunResult.overflow

/-- size_u7 of lib.rs lines 132-139: the number of bytes a minimal
encoding of the value occupies. -/
def size_u7 (val : Nat) : Nat :=
  if 2097152 ≤ val then 4
  else if 16384 ≤ val then 3
  else if 128 ≤ val then 2
  else 1

/-- parse_opb of lib.rs lines 141-171: match the magic with the tag
combinator, re-check the matched bytes against FILE_ID, read and validate
the format byte, then read three big endian u32 fields: declared size,
instrument count, chunk count. -/
def parse_opb (input : List Nat) : Except OpbError (List Nat × OpbFile) :=
  match tagP FILE_ID input with
  | Except.error e => Except.error e
  | Except.ok (input1, id) =>
    if id = FILE_ID then
      match u8P input1 with
      | Except.error e => Except.error e
      | Except.ok (input2, fmti) =>
        if 1 < fmti then Except.error (OpbError.Format fmti)
        else
          let fmt := if fmti = 0 then OpbFormat.Standard else OpbFormat.Raw
          match be_u32P input2 with
          | Except.error e => Except.error e
          | Except.ok (input3, size) =>
            match be_u32P input3 with
            | Except.error e => Except.error e
            | Except.ok (input4, ninst) =>
              match be_u32P input4 with
              | Except.error e => Except.error e
              | Except.ok (input5, nchunks) =>
                Except.ok (input5,
                  { header := { id := id, fmt := fmt, size := size,
                                num_instruments := ninst, num_chunks := nchunks } })
    else Except.error (OpbError.NotAnOpbFile id)

/-- Modelled from the spec: the minimal length base 128 encoder of section
4.1, which is not present in the source (the spec notes it is needed for
round trip tests but missing). Little endian seven bit groups; the
continuation bit 0x80 is set on every byte except the last; the length is
minimal for the value. -/
def encode_u7 (v : Nat) : List Nat :=
  if v < 128 then [v]
  else if v < 16384 then [128 + v % 128, v / 128]
  else if v < 2097152 then [128 + v % 128, 128 + v / 128 % 128, v / 16384]
  else [128 + v % 128, 128 + v / 128 % 128, 128 + v / 16384 % 128, v / 2097152]

instance exceptDecEq {ε α : Type} [DecidableEq ε] [DecidableEq α] : DecidableEq (Except ε α) :=
  fun x y =>
    match x, y with
    | Except.ok a, Except.ok b =>
      if h : a = b then isTrue (by rw [h]) else isFalse (by intro he; cases he; exact h rfl)
    | Except.error a, Except.error b =>
      if h : a = b then isTrue (by rw [h]) else isFalse (by intro he; cases he; exact h rfl)
    | Except.ok _, Except.error _ => isFalse (by intro h; cases h)
    | Except.error _, Except.ok _ => isFalse (by intro h; cases h)

/-- Extract the format field of a successful parse, if any. -/
def fmtOf : Except OpbError (List Nat × OpbFile) → Option OpbFormat
  | Except.ok (_, f) => some f.header.fmt
  | Except.error _ => none

/-- Whether a stage succeeded. -/
def isOkB {ε α : Type} : Except ε α → Bool
  | Except.ok _ => true
  | Except.error _ => false

/-- Whether a stage failed because the input was exhausted: an Eof read
error, the embedding of the out of bytes branch of the nom readers. -/
def isEofReadB {α : Type} : Except OpbError α → Bool
  | Except.error (OpbError.Read _ ErrKind.Eof) => true
  | _ => false

/-- Whether a checked run ended in the exhausted input error. -/
def isEofReadR {α : Type} : RunResult α → Bool
  | RunResult.error (OpbError.Read _ ErrKind.Eof) => true
  | _ => false

/-- Whether a checked run ended in a rejection other than exhausted input,
such as a MalformedInteger style error would be. -/
def isRejectR {α : Type} : RunResult α → Bool
  | RunResult.error (OpbError.Read _ ErrKind.Eof) => false
  | RunResult.error _ => true
  | _ => false

-- The combination expression always overflows: the checked evaluation
-- stops at the shift of b2 by 14.

theorem u7val_none (b0 b1 b2 b3 : Nat) : u7val b0 b1 b2 b3 = none := by
  simp [u7val, shlU8]

-- Shape lemmas for read_u7: one case per number of byte groups read,
-- driven by the continuation bits of the bytes actually present. Every
-- completed parse ends in the arithmetic overflow of the result
-- expression.

theorem read_u7_one (b0 : Nat) (rest : List Nat) (h : b0 < 128) :
    read_u7 (b0 :: rest) = RunResult.overflow := by
  simp [read_u7, u8P, u7val_none, Nat.le_add_left, Nat.not_le.mpr h]

theorem read_u7_two (b0 b1 : Nat) (rest : List Nat) (h0 : 128 ≤ b0) (h1 : b1 < 128) :
    read_u7 (b0 :: b1 :: rest) = RunResult.overflow := by
  simp [read_u7, u8P, u7val_none, Nat.le_add_left, h0, Nat.not_le.mpr h1]

theorem read_u7_three (b0 b1 b2 : Nat) (rest : List Nat) (h0 : 128 ≤ b0) (h1 : 128 ≤ b1)
    (h2 : b2 < 128) :
    read_u7 (b0 :: b1 :: b2 :: rest) = RunResult.overflow := by
  simp [read_u7, u8P, u7val_none, Nat.le_add_left, h0, h1, Nat.not_le.mpr h2]

theorem read_u7_four (b0 b1 b2 b3 : Nat) (rest : List Nat) (h0 : 128 ≤ b0) (h1 : 128 ≤ b1)
    (h2 : 128 ≤ b2) :
    read_u7 (b0 :: b1 :: b2 :: b3 :: rest) = RunResult.overflow := by
  simp [read_u7, u8P, u7val_none, Nat.le_add_left, h0, h1, h2]

theorem read_u7_cases (input : List Nat) :
    read_u7 input = RunResult.overflow ∨
    read_u7 input = RunResult.error (OpbError.Read [] ErrKind.Eof) := by
  rcases input with _ | ⟨b0, _ | ⟨b1, _ | ⟨b2, _ | ⟨b3, rest⟩⟩⟩⟩
  · right
    rfl
  · by_cases c0 : 128 ≤ b0
    · right
      simp [read_u7, u8P, c0]
    · left
      exact read_u7_one b0 [] (by omega)
  · by_cases c0 : 128 ≤ b0
    · by_cases c1 : 128 ≤ b1
      · right
        simp [read_u7, u8P, c0, c1]
      · left
        exact read_u7_two b0 b1 [] c0 (by omega)
    · left
      exact read_u7_one b0 [b1] (by omega)
  · by_cases c0 : 128 ≤ b0
    · by_cases c1 : 128 ≤ b1
      · by_cases c2 : 128 ≤ b2
        · right
          simp [read_u7, u8P, c0, c1, c2]
        · left
          exact read_u7_three b0 b1 b2 [] c0 c1 (by omega)
      · left
        exact read_u7_two b0 b1 [b2] c0 (by omega)
    · left
      exact read_u7_one b0 [b1, b2] (by omega)
  · left
    by_cases c0 : 128 ≤ b0
    · by_cases c1 : 128 ≤ b1
      · by_cases c2 : 128 ≤ b2
        · exact read_u7_four b0 b1 b2 b3 rest c0 c1 c2
        · exact read_u7_three b0 b1 b2 (b3 :: rest) c0 c1 (by omega)
      · exact read_u7_two b0 b1 (b2 :: b3 :: rest) c0 (by omega)
    · exact read_u7_one b0 (b1 :: b2 :: b3 :: rest) (by omega)

theorem read_u7_len4 (input : List Nat) (h : 4 ≤ input.length) :
    read_u7 input = RunResult.overflow := by
  rcases input with _ | ⟨b0, _ | ⟨b1, _ | ⟨b2, _ | ⟨b3, rest⟩⟩⟩⟩
  · simp at h
  · simp at h
  · simp at h
  · simp at h
  · by_cases c0 : 128 ≤ b0
    · by_cases c1 : 128 ≤ b1
      · by_cases c2 : 128 ≤ b2
        · exact read_u7_four b0 b1 b2 b3 rest c0 c1 c2
        · exact read_u7_three b0 b1 b2 (b3 :: rest) c0 c1 (by omega)
      · exact read_u7_two b0 b1 (b2 :: b3 :: rest) c0 (by omega)
    · exact read_u7_one b0 (b1 :: b2 :: b3 :: rest) (by omega)

/-- Claim C2 under test (code divergence): the claimed 32 bit decode
formula is never computed by the source. The combination at lib.rs line
129 is u8 typed, and its shifts by 14 and 21 exceed the u8 width, so
under checked Rust arithmetic every completed varint parse ends in the
overflow outcome instead of a value; the only other outcome of read_u7 is
the Eof read error for exhausted input. Shown in general and on a fully
continued four byte input. -/
theorem C2_u8_combination_overflows :
    (∀ input : List Nat, read_u7 input = RunResult.overflow ∨
      read_u7 input = RunResult.error (OpbError.Read [] ErrKind.Eof)) ∧
    read_u7 [133, 133, 133, 133] = RunResult.overflow := by
  refine ⟨read_u7_cases, ?_⟩
  exact read_u7_four 133 133 133 133 [] (by omega) (by omega) (by omega)

/-- Claim C3 under test (code divergence): even the concrete cases of the
claim produce no value in the source: the return expression of read_u7
always evaluates the over wide u8 shifts, so decoding 0x05 or 0x85 0x01
ends in the arithmetic overflow rather than in 5 or 133. -/
theorem C3_concrete_varints_overflow :
    read_u7 [5] = RunResult.overflow ∧
    read_u7 [5, 17] = RunResult.overflow ∧
    read_u7 [133, 1] = RunResult.overflow ∧
    read_u7 [133, 1, 17] = RunResult.overflow := by
  decide

/-- Claim C9 under test (code divergence): the source never produces a
MalformedInteger style rejection: the error type has no such variant and
the only error read_u7 returns is the Eof read error for exhausted input.
But the claimed successful decode of the non minimal encoding 0x80 0x00
does not happen either: the completed parse ends in the u8 shift
overflow. -/
theorem C9_no_malformed_rejection :
    read_u7 [128, 0] = RunResult.overflow ∧
    (∀ input : List Nat, isRejectR (read_u7 input) = false) := by
  constructor
  · decide
  · intro input
    rcases read_u7_cases input with h | h <;> rw [h] <;> rfl

/-- Claim C8: size_u7 returns 4 for values at least 2 to the 21, 3 for
values in the range from 2 to the 14 up to 2 to the 21, 2 from 2 to the 7
up to 2 to the 14, and 1 below 2 to the 7, for every 32 bit value. -/
theorem C8_minimal_length (v : Nat) (h : v < 2 ^ 32) :
    (2 ^ 21 ≤ v → size_u7 v = 4) ∧
    (2 ^ 14 ≤ v → v < 2 ^ 21 → size_u7 v = 3) ∧
    (2 ^ 7 ≤ v → v < 2 ^ 14 → size_u7 v = 2) ∧
    (v < 2 ^ 7 → size_u7 v = 1) := by
  unfold size_u7
  split_ifs <;> norm_num <;> omega

theorem C8_minimal_length_witness :
    (2 ^ 21 ≤ 3000000 → size_u7 3000000 = 4) ∧
    (2 ^ 14 ≤ 3000000 → 3000000 < 2 ^ 21 → size_u7 3000000 = 3) ∧
    (2 ^ 7 ≤ 3000000 → 3000000 < 2 ^ 14 → size_u7 3000000 = 2) ∧
    (3000000 < 2 ^ 7 → size_u7 3000000 = 1) :=
  C8_minimal_length 3000000 (by norm_num)

/-- Claim C1 under test (code divergence): the round trip law cannot hold
in the source: decoding the minimal encoding of any value (encode_u7 is
modelled from the spec, which notes the encoder is absent from the source)
always reaches the result expression of read_u7, whose u8 typed shifts by
14 and 21 overflow, so no value at all is returned, while the encoding
length does equal size_u7 of the value. -/
theorem C1_roundtrip_unrealizable (v : Nat) (rest : List Nat) :
    read_u7 (encode_u7 v ++ rest) = RunResult.overflow ∧
    (encode_u7 v).length = size_u7 v := by
  by_cases c1 : v < 128
  · have he : encode_u7 v = [v] := by simp [encode_u7, c1]
    refine ⟨?_, ?_⟩
    · rw [he]
      simp only [List.cons_append, List.nil_append]
      exact read_u7_one v rest c1
    · rw [he]
      simp [size_u7]
      split_ifs <;> omega
  · by_cases c2 : v < 16384
    · have he : encode_u7 v = [128 + v % 128, v / 128] := by simp [encode_u7, c1, c2]
      refine ⟨?_, ?_⟩
      · rw [he]
        simp only [List.cons_append, List.nil_append]
        exact read_u7_two (128 + v % 128) (v / 128) rest (by omega) (by omega)
      · rw [he]
        simp [size_u7]
        split_ifs <;> omega
    · by_cases c3 : v < 2097152
      · have he : encode_u7 v = [128 + v % 128, 128 + v / 128 % 128, v / 16384] := by
          simp [encode_u7, c1, c2, c3]
        refine ⟨?_, ?_⟩
        · rw [he]
          simp only [List.cons_append, List.nil_append]
          exact read_u7_three (128 + v % 128) (128 + v / 128 % 128) (v / 16384) rest
            (by omega) (by omega) (by omega)
        · rw [he]
          simp [size_u7]
          split_ifs <;> omega
      · have he : encode_u7 v =
            [128 + v % 128, 128 + v / 128 % 128, 128 + v / 16384 % 128, v / 2097152] := by
          simp [encode_u7, c1, c2, c3]
        refine ⟨?_, ?_⟩
        · rw [he]
          simp only [List.cons_append, List.nil_append]
          exact read_u7_four (128 + v % 128) (128 + v / 128 % 128) (128 + v / 16384 % 128)
            (v / 2097152) rest (by omega) (by omega) (by omega)
        · rw [he]
          simp [size_u7]
          split_ifs <;> omega

-- Inversion lemmas for parse_opb: what a success implies, and the exact
-- classification of every error it can return.

theorem parse_opb_ok_inv (input rest : List Nat) (f : OpbFile)
    (h : parse_opb input = Except.ok (rest, f)) :
    f.header.id = FILE_ID ∧ rest = List.drop 20 input ∧ 20 ≤ input.length := by
  unfold parse_opb tagP u8P be_u32P at h
  by_cases c1 : List.take FILE_ID.length input = FILE_ID
  · rw [if_pos c1] at h
    simp only at h
    rw [if_pos c1] at h
    by_cases c2 : 1 ≤ (List.drop FILE_ID.length input).length
    · rw [if_pos c2] at h
      simp only at h
      by_cases c3 : 1 < (List.drop FILE_ID.length input).getD 0 0
      · rw [if_pos c3] at h
        simp at h
      · rw [if_neg c3] at h
        by_cases c4 : 4 ≤ (List.drop 1 (List.drop FILE_ID.length input)).length
        · rw [if_pos c4] at h
          simp only at h
          by_cases c5 : 4 ≤ (List.drop 4 (List.drop 1 (List.drop FILE_ID.length input))).length
          · rw [if_pos c5] at h
            simp only at h
            by_cases c6 : 4 ≤ (List.drop 4 (List.drop 4 (List.drop 1 (List.drop FILE_ID.length input)))).length
            · rw [if_pos c6] at h
              simp only at h
              simp only [Except.ok.injEq, Prod.mk.injEq] at h
              obtain ⟨hrest, hf⟩ := h
              have hlen : 20 ≤ input.length := by
                simp [List.length_drop, FILE_ID] at c6
                omega
              refine ⟨?_, ?_, hlen⟩
              · rw [← hf]
                exact c1
              · rw [← hrest]
                simp [List.drop_drop, FILE_ID]
            · rw [if_neg c6] at h
              simp at h
          · rw [if_neg c5] at h
            simp at h
        · rw [if_neg c4] at h
          simp at h
    · rw [if_neg c2] at h
      simp at h
  · rw [if_neg c1] at h
    simp at h

theorem parse_opb_error_inv (input : List Nat) (e : OpbError)
    (h : parse_opb input = Except.error e) :
    (e = OpbError.Read input ErrKind.Tag ∧ ¬ List.take 7 input = FILE_ID) ∨
    (∃ b, e = OpbError.Format b ∧ 1 < b ∧ 8 ≤ input.length) ∨
    (∃ rem, e = OpbError.Read rem ErrKind.Eof ∧ input.length < 20) := by
  unfold parse_opb tagP u8P be_u32P at h
  by_cases c1 : List.take FILE_ID.length input = FILE_ID
  · rw [if_pos c1] at h
    simp only at h
    rw [if_pos c1] at h
    by_cases c2 : 1 ≤ (List.drop FILE_ID.length input).length
    · rw [if_pos c2] at h
      simp only at h
      have hc2 : 8 ≤ input.length := by
        simp [List.length_drop, FILE_ID] at c2
        omega
      by_cases c3 : 1 < (List.drop FILE_ID.length input).getD 0 0
      · rw [if_pos c3] at h
        simp only [Except.error.injEq] at h
        exact Or.inr (Or.inl ⟨_, h.symm, c3, hc2⟩)
      · rw [if_neg c3] at h
        by_cases c4 : 4 ≤ (List.drop 1 (List.drop FILE_ID.length input)).length
        · rw [if_pos c4] at h
          simp only at h
          by_cases c5 : 4 ≤ (List.drop 4 (List.drop 1 (List.drop FILE_ID.length input))).length
          · rw [if_pos c5] at h
            simp only at h
            by_cases c6 : 4 ≤ (List.drop 4 (List.drop 4 (List.drop 1 (List.drop FILE_ID.length input)))).length
            · rw [if_pos c6] at h
              simp at h
            · rw [if_neg c6] at h
              simp only [Except.error.injEq] at h
              refine Or.inr (Or.inr ⟨_, h.symm, ?_⟩)
              simp [List.length_drop, FILE_ID] at c6
              omega
          · rw [if_neg c5] at h
            simp only [Except.error.injEq] at h
            refine Or.inr (Or.inr ⟨_, h.symm, ?_⟩)
            simp [List.length_drop, FILE_ID] at c5
            omega
        · rw [if_neg c4] at h
          simp only [Except.error.injEq] at h
          refine Or.inr (Or.inr ⟨_, h.symm, ?_⟩)
          simp [List.length_drop, FILE_ID] at c4
          omega
    · rw [if_neg c2] at h
      simp only [Except.error.injEq] at h
      refine Or.inr (Or.inr ⟨_, h.symm, ?_⟩)
      simp [List.length_drop, FILE_ID] at c2
      omega
  · rw [if_neg c1] at h
    simp only [Except.error.injEq] at h
    exact Or.inl ⟨h.symm, c1⟩

/-- Claim C4: totality on short input. Every buffer shorter than the 20
bytes the header stage needs makes parse_opb fail (it never succeeds);
a varint buffer that ends while every present byte still has the
continuation bit set makes read_u7 return the Eof read error as an
ordinary value, the embedding of the Truncated condition: the early
returns for exhausted input happen before the overflowing result
expression, so the short path neither succeeds nor panics. On buffers of
sufficient length the exhausted input branch is never taken: with at
least four bytes read_u7 never returns the Eof read error (it reaches
the result expression instead), and with at least twenty bytes parse_opb
never returns the Eof read error. -/
theorem C4_truncated_on_short_input :
    (∀ input : List Nat, input.length < 20 → isOkB (parse_opb input) = false) ∧
    (∀ input : List Nat, input.length < 4 → (∀ b ∈ input, 128 ≤ b) →
      read_u7 input = RunResult.error (OpbError.Read [] ErrKind.Eof)) ∧
    (∀ input : List Nat, 4 ≤ input.length → isEofReadR (read_u7 input) = false) ∧
    (∀ input : List Nat, 20 ≤ input.length → isEofReadB (parse_opb input) = false) := by
  refine ⟨?_, ?_, ?_, ?_⟩
  · intro input hl
    cases hres : parse_opb input with
    | ok val =>
      have h20 := (parse_opb_ok_inv input val.1 val.2 hres).2.2
      exact absurd h20 (by omega)
    | error e => simp [isOkB]
  · intro input hl hall
    rcases input with _ | ⟨b0, _ | ⟨b1, _ | ⟨b2, _ | ⟨b3, rest⟩⟩⟩⟩
    · rfl
    · simp [read_u7, u8P, hall b0 (by simp)]
    · simp [read_u7, u8P, hall b0 (by simp), hall b1 (by simp)]
    · simp [read_u7, u8P, hall b0 (by simp), hall b1 (by simp), hall b2 (by simp)]
    · exfalso
      simp at hl
      omega
  · intro input hl
    rw [read_u7_len4 input hl]
    rfl
  · intro input hl
    cases hres : parse_opb input with
    | ok val => simp [isEofReadB]
    | error e =>
      rcases parse_opb_error_inv input e hres with ⟨he, -⟩ | ⟨b, he, -, -⟩ | ⟨rem, he, hlen⟩
      · subst he
        simp [isEofReadB]
      · subst he
        simp [isEofReadB]
      · exact absurd hlen (by omega)

theorem C4_truncated_on_short_input_witness :
    isOkB (parse_opb (List.replicate 19 0)) = false ∧
    read_u7 [128, 128, 128] = RunResult.error (OpbError.Read [] ErrKind.Eof) ∧
    isEofReadR (read_u7 [1, 2, 3, 4]) = false ∧
    isEofReadB (parse_opb (List.replicate 20 0)) = false :=
  ⟨C4_truncated_on_short_input.1 _ (by decide),
    C4_truncated_on_short_input.2.1 _ (by decide) (by decide),
    C4_truncated_on_short_input.2.2.1 _ (by decide),
    C4_truncated_on_short_input.2.2.2 _ (by decide)⟩

/-- Claim C10: the implicit postcondition of a successful parse: the header
id field always equals the fixed magic FILE_ID, the remaining buffer is
the input with its first twenty bytes removed, and the NotAnOpbFile error
is never produced (the explicit check after the tag match is unreachable,
because the tag combinator only succeeds when the bytes equal FILE_ID). -/
theorem C10_success_postcondition :
    (∀ (input rest : List Nat) (f : OpbFile), parse_opb input = Except.ok (rest, f) →
      f.header.id = FILE_ID ∧ rest = List.drop 20 input) ∧
    (∀ (input b : List Nat), ¬ parse_opb input = Except.error (OpbError.NotAnOpbFile b)) := by
  constructor
  · intro input rest f h
    have hinv := parse_opb_ok_inv input rest f h
    exact ⟨hinv.1, hinv.2.1⟩
  · intro input b h
    rcases parse_opb_error_inv input _ h with ⟨he, -⟩ | ⟨c, he, -, -⟩ | ⟨rem, he, -⟩ <;> simp_all

theorem C10_success_postcondition_witness :
    ((OpbFile.mk (OpbHeader.mk FILE_ID OpbFormat.Standard 16 0 0)).header.id = FILE_ID ∧
      ([170, 187] : List Nat) =
        List.drop 20 [79, 80, 66, 105, 110, 49, 0, 0, 0, 0, 0, 16, 0, 0, 0, 0, 0, 0, 0, 0, 170, 187]) ∧
    ¬ parse_opb [] = Except.error (OpbError.NotAnOpbFile []) :=
  ⟨C10_success_postcondition.1
      [79, 80, 66, 105, 110, 49, 0, 0, 0, 0, 0, 16, 0, 0, 0, 0, 0, 0, 0, 0, 170, 187]
      [170, 187] (OpbFile.mk (OpbHeader.mk FILE_ID OpbFormat.Standard 16 0 0)) (by decide),
    C10_success_postcondition.2 [] []⟩

/-- Claim C6: the format discriminant. After a valid magic, format byte 0
is accepted as Standard and 1 as Raw (shown on any tail long enough for
the three header fields), and every format byte above 1 fails with the
Format error carrying the offending byte, whatever follows. -/
theorem C6_format_discriminant :
    (∀ rest : List Nat, 12 ≤ rest.length →
      fmtOf (parse_opb (FILE_ID ++ 0 :: rest)) = some OpbFormat.Standard) ∧
    (∀ rest : List Nat, 12 ≤ rest.length →
      fmtOf (parse_opb (FILE_ID ++ 1 :: rest)) = some OpbFormat.Raw) ∧
    (∀ (f : Nat) (rest : List Nat), 1 < f →
      parse_opb (FILE_ID ++ f :: rest) = Except.error (OpbError.Format f)) := by
  refine ⟨?_, ?_, ?_⟩
  · intro rest h12
    unfold parse_opb tagP u8P be_u32P
    rw [List.take_left, List.drop_left]
    rw [if_pos rfl]
    simp only
    simp only [if_true]
    rw [if_pos (show (1 : Nat) ≤ (0 :: rest).length by simp)]
    simp only
    rw [if_neg (show ¬ (1 : Nat) < (0 :: rest).getD 0 0 by simp)]
    rw [if_pos (show (4 : Nat) ≤ (List.drop 1 (0 :: rest)).length by simp; omega)]
    simp only
    rw [if_pos (show (4 : Nat) ≤ (List.drop 4 (List.drop 1 (0 :: rest))).length by simp; omega)]
    simp only
    rw [if_pos (show (4 : Nat) ≤ (List.drop 4 (List.drop 4 (List.drop 1 (0 :: rest)))).length
      by simp; omega)]
    simp only
    rfl
  · intro rest h12
    unfold parse_opb tagP u8P be_u32P
    rw [List.take_left, List.drop_left]
    rw [if_pos rfl]
    simp only
    simp only [if_true]
    rw [if_pos (show (1 : Nat) ≤ (1 :: rest).length by simp)]
    simp only
    rw [if_neg (show ¬ (1 : Nat) < (1 :: rest).getD 0 0 by simp)]
    rw [if_pos (show (4 : Nat) ≤ (List.drop 1 (1 :: rest)).length by simp; omega)]
    simp only
    rw [if_pos (show (4 : Nat) ≤ (List.drop 4 (List.drop 1 (1 :: rest))).length by simp; omega)]
    simp only
    rw [if_pos (show (4 : Nat) ≤ (List.drop 4 (List.drop 4 (List.drop 1 (1 :: rest)))).length
      by simp; omega)]
    simp only
    rfl
  · intro f rest hf
    unfold parse_opb tagP u8P be_u32P
    rw [List.take_left, List.drop_left]
    rw [if_pos rfl]
    simp only
    simp only [if_true]
    rw [if_pos (show (1 : Nat) ≤ (f :: rest).length by simp)]
    simp only
    rw [if_pos (show (1 : Nat) < (f :: rest).getD 0 0 by simpa using hf)]
    rfl

theorem C6_format_discriminant_witness :
    fmtOf (parse_opb (FILE_ID ++ 0 :: List.replicate 12 0)) = some OpbFormat.Standard ∧
    fmtOf (parse_opb (FILE_ID ++ 1 :: List.replicate 12 0)) = some OpbFormat.Raw ∧
    parse_opb (FILE_ID ++ 2 :: List.replicate 12 0) = Except.error (OpbError.Format 2) :=
  ⟨C6_format_discriminant.1 _ (by decide),
    C6_format_discriminant.2.1 _ (by decide),
    C6_format_discriminant.2.2 2 _ (by decide)⟩

/-- Claim C7: header field layout. After the magic and a format byte of
zero, parse_opb reads three big endian 32 bit fields in the order declared
size, instrument count, chunk count, and returns the rest of the buffer;
in particular the 20 byte header with size 16 and zero counts parses to
fmt Standard, zero instruments, zero chunks, with the remainder starting
at offset 20. -/
theorem C7_header_field_layout :
    (∀ (s3 s2 s1 s0 n3 n2 n1 n0 k3 k2 k1 k0 : Nat) (extra : List Nat),
      parse_opb (FILE_ID ++ 0 :: s3 :: s2 :: s1 :: s0 :: n3 :: n2 :: n1 :: n0 ::
          k3 :: k2 :: k1 :: k0 :: extra) =
        Except.ok (extra, OpbFile.mk (OpbHeader.mk FILE_ID OpbFormat.Standard
          (be32 s3 s2 s1 s0) (be32 n3 n2 n1 n0) (be32 k3 k2 k1 k0)))) ∧
    parse_opb [79, 80, 66, 105, 110, 49, 0, 0, 0, 0, 0, 16, 0, 0, 0, 0, 0, 0, 0, 0] =
      Except.ok ([], OpbFile.mk (OpbHeader.mk FILE_ID OpbFormat.Standard 16 0 0)) ∧
    parse_opb [79, 80, 66, 105, 110, 49, 0, 0, 0, 0, 0, 16, 0, 0, 0, 0, 0, 0, 0, 0, 170, 187] =
      Except.ok ([170, 187], OpbFile.mk (OpbHeader.mk FILE_ID OpbFormat.Standard 16 0 0)) := by
  refine ⟨?_, by decide, by decide⟩
  intro s3 s2 s1 s0 n3 n2 n1 n0 k3 k2 k1 k0 extra
  unfold parse_opb tagP u8P be_u32P
  rw [List.take_left, List.drop_left]
  rw [if_pos rfl]
  simp only
  simp only [if_true]
  rw [if_pos (show (1 : Nat) ≤
    (0 :: s3 :: s2 :: s1 :: s0 :: n3 :: n2 :: n1 :: n0 :: k3 :: k2 :: k1 :: k0 :: extra).length
    by simp)]
  simp only
  rw [if_neg (show ¬ (1 : Nat) <
    (0 :: s3 :: s2 :: s1 :: s0 :: n3 :: n2 :: n1 :: n0 :: k3 :: k2 :: k1 :: k0 :: extra).getD 0 0
    by simp)]
  rw [if_pos (show (4 : Nat) ≤
    (List.drop 1 (0 :: s3 :: s2 :: s1 :: s0 :: n3 :: n2 :: n1 :: n0 :: k3 :: k2 :: k1 :: k0 ::
      extra)).length by simp)]
  simp only
  rw [if_pos (show (4 : Nat) ≤
    (List.drop 4 (List.drop 1 (0 :: s3 :: s2 :: s1 :: s0 :: n3 :: n2 :: n1 :: n0 :: k3 :: k2 ::
      k1 :: k0 :: extra))).length by simp)]
  simp only
  rw [if_pos (show (4 : Nat) ≤
    (List.drop 4 (List.drop 4 (List.drop 1 (0 :: s3 :: s2 :: s1 :: s0 :: n3 :: n2 :: n1 :: n0 ::
      k3 :: k2 :: k1 :: k0 :: extra)))).length by simp)]
  simp only
  rfl

/-- Claim C5 under test (code divergence): on inputs whose first seven
bytes differ from the magic, parse_opb does not return NotAnOpbFile with
the bytes read; the tag combinator fails first, so the result is the Tag
read error carrying the whole input at the failure point. Shown on the
seven byte input XPBin1 zero and on a twenty byte input with the same bad
prefix. -/
theorem C5_magic_mismatch_actual_error :
    parse_opb [88, 80, 66, 105, 110, 49, 0] =
      Except.error (OpbError.Read [88, 80, 66, 105, 110, 49, 0] ErrKind.Tag) ∧
    parse_opb [88, 80, 66, 105, 110, 49, 0, 0, 0, 0, 0, 16, 0, 0, 0, 0, 0, 0, 0, 0] =
      Except.error (OpbError.Read
        [88, 80, 66, 105, 110, 49, 0, 0, 0, 0, 0, 16, 0, 0, 0, 0, 0, 0, 0, 0] ErrKind.Tag) := by
  decide
